import Mathlib

/-!
Verification of the chunk-distribution peer (`src/peer.py`) and its
congestion controller (`src/congestion_control.py`).

Modelling conventions:
* Python `float` arithmetic is modelled by exact rational arithmetic (`ℚ`);
  the specification's numeric properties are stated in real-number terms.
* Python `int` is modelled by `ℤ` (or `ℕ` where the source value is a length
  or sequence index that is manifestly non-negative).
* Byte strings are modelled as `List ℕ` (one entry per byte); the hex-string
  chunk identifiers used as dictionary keys in the source are modelled by the
  underlying 20-byte lists (`bytes.fromhex`/`bytes.hex` is a bijection).
* Python dictionaries are modelled as association lists in insertion order,
  matching the source's reliance on `dict` iteration order.
* Exceptions escaping a function are modelled by `Except Unit`.
-/

namespace CongestionControl

/-- State of `CongestionController` (`src/congestion_control.py`):
`cwnd : float`, `ssthresh : int`, `dup_ack_count : int`.  The
plotting fields (`cwnd_history`, `start_time`) are pure instrumentation and
are omitted. -/
structure CongestionController where
  cwnd : ℚ
  ssthresh : ℤ
  dup_ack_count : ℤ
  deriving Repr, DecidableEq

/-- `CongestionController.__init__`: `cwnd = 1.0`, `ssthresh = 64`,
`dup_ack_count = 0`. -/
def CongestionController.init : CongestionController :=
  { cwnd := 1, ssthresh := 64, dup_ack_count := 0 }

/-- `get_cwnd`: `int(self.cwnd)` — Python `int()` on a float truncates toward
zero, which is `Int.div` of the rational's numerator by its denominator. -/
def CongestionController.get_cwnd (c : CongestionController) : ℤ :=
  Int.tdiv c.cwnd.num (c.cwnd.den : ℤ)

/-- `on_new_ack`: reset `dup_ack_count` to 0; then slow start
(`cwnd += 1.0` when `cwnd < ssthresh`) or congestion avoidance
(`cwnd += 1.0 / cwnd`). -/
def CongestionController.on_new_ack (c : CongestionController) :
    CongestionController :=
  let c := { c with dup_ack_count := 0 }
  if c.cwnd < (c.ssthresh : ℚ) then
    { c with cwnd := c.cwnd + 1 }
  else
    { c with cwnd := c.cwnd + 1 / c.cwnd }

/-- `_handle_loss_event`: `ssthresh = max(floor(cwnd / 2), 2)`; `cwnd = 1.0`. -/
def CongestionController.handle_loss_event (c : CongestionController) :
    CongestionController :=
  { c with ssthresh := max ⌊c.cwnd / 2⌋ 2, cwnd := 1 }

/-- `on_duplicate_ack`: increment `dup_ack_count`; on exactly 3, run the loss
event and return `true`; otherwise return `false`.  The Python method mutates
`self` and returns a `bool`; we return the pair. -/
def CongestionController.on_duplicate_ack (c : CongestionController) :
    Bool × CongestionController :=
  let c := { c with dup_ack_count := c.dup_ack_count + 1 }
  if c.dup_ack_count = 3 then
    (true, c.handle_loss_event)
  else
    (false, c)

/-- `on_timeout`: unconditionally runs the loss event. -/
def CongestionController.on_timeout (c : CongestionController) :
    CongestionController :=
  c.handle_loss_event

/-- The three events a caller can deliver to the controller. -/
inductive CCEvent where
  | newAck
  | dupAck
  | timeout
  deriving Repr, DecidableEq

/-- One controller transition per delivered event. -/
def CCEvent.step (e : CCEvent) (c : CongestionController) :
    CongestionController :=
  match e with
  | .newAck => c.on_new_ack
  | .dupAck => (c.on_duplicate_ack).2
  | .timeout => c.on_timeout

/-- Run a finite sequence of events from a state. -/
def runCC (es : List CCEvent) (c : CongestionController) :
    CongestionController :=
  es.foldl (fun c e => e.step c) c

/-- The congestion-state invariant claimed by the data model. -/
def CCInv (c : CongestionController) : Prop :=
  1 ≤ c.cwnd ∧ 2 ≤ c.ssthresh ∧ 0 ≤ c.dup_ack_count

instance (c : CongestionController) : Decidable (CCInv c) := by
  unfold CCInv; infer_instance

end CongestionControl

namespace Peer

/-! Embedding of `src/peer.py`.  Peer addresses (`(ip, port)` tuples in the
source) are only ever compared for equality, so they are modelled by an
opaque `ℕ`.  The hex-string chunk identifiers (`bytes.hex()` of a 20-byte
digest) are modelled by the digest's byte list, `bytes.fromhex`/`bytes.hex`
being mutually inverse.  The module-level `g_...` dictionaries are modelled
as association lists in insertion order (Python `dict` iteration order). -/

abbrev AddressType := ℕ

def CHUNK_DATA_SIZE : ℕ := 512 * 1024

def MAX_PAYLOAD : ℕ := 1024

/-- `struct.calcsize("BBHII")` = 1 + 1 + 2 + 4 + 4. -/
def HEADER_LEN : ℕ := 12

namespace PktType

def WHOHAS : ℕ := 0
def IHAVE : ℕ := 1
def GET : ℕ := 2
def DATA : ℕ := 3
def ACK : ℕ := 4
def DENIED : ℕ := 5

end PktType

/-- An outbound packet handed to `sock.sendto`.  `Packet.build_packet`
serialises `(pkt_type, seq, ack, payload)` into header bytes plus payload;
none of the claims concern the byte serialisation of *outbound* packets, so
they are modelled structurally by their four fields. -/
structure PacketOut where
  pkt_type : ℕ
  seq : ℕ
  ack : ℕ
  payload : List ℕ
  deriving Repr, DecidableEq

/-- `Packet.build_packet(pkt_type, seq, ack, payload)`. -/
def Packet.build_packet (pkt_type seq ack : ℕ) (payload : List ℕ) :
    PacketOut :=
  { pkt_type := pkt_type, seq := seq, ack := ack, payload := payload }

/-- `Packet.parse_header(data)`: `struct.unpack("BBHII", data[:12])` raises
`struct.error` when fewer than 12 bytes are available (modelled by `none`);
otherwise the fields are read and passed through `ntohs`/`ntohl`, i.e. the
two- and four-byte fields are read in network (big-endian) byte order. -/
def Packet.parse_header (data : List ℕ) :
    Option (ℕ × ℕ × ℕ × ℕ × ℕ) :=
  if data.length < HEADER_LEN then none
  else
    some (data.getD 0 0, data.getD 1 0,
      data.getD 2 0 * 256 + data.getD 3 0,
      ((data.getD 4 0 * 256 + data.getD 5 0) * 256 + data.getD 6 0) * 256 +
        data.getD 7 0,
      ((data.getD 8 0 * 256 + data.getD 9 0) * 256 + data.getD 10 0) * 256 +
        data.getD 11 0)

/-- `DownloadSession` state.  `last_ack_time` is written once in
`__init__` and never read, so it is omitted. -/
structure DownloadSession where
  chunk_hash : List ℕ
  peer_addr : AddressType
  data : List ℕ
  expected_seq : ℕ
  completed : Bool
  deriving Repr, DecidableEq

/-- `DownloadSession.__init__(chunk_hash, peer_addr)`. -/
def DownloadSession.init (chunk_hash : List ℕ) (peer_addr : AddressType) :
    DownloadSession :=
  { chunk_hash := chunk_hash, peer_addr := peer_addr, data := [],
    expected_seq := 1, completed := false }

/-- `DownloadSession.add_data(seq, data)`: accept exactly when
`seq == expected_seq`; on acceptance append the payload, advance
`expected_seq`, and set `completed` once the assembled size reaches
`CHUNK_DATA_SIZE`.  The Python method mutates `self` and returns a `bool`;
we return the pair. -/
def DownloadSession.add_data (s : DownloadSession) (seq : ℕ)
    (data : List ℕ) : Bool × DownloadSession :=
  if seq = s.expected_seq then
    let newData := s.data ++ data
    (true,
      { s with
        data := newData
        expected_seq := s.expected_seq + 1
        completed := (if CHUNK_DATA_SIZE ≤ newData.length then true
          else s.completed) })
  else
    (false, s)

/-- `DownloadSession.is_complete()`. -/
def DownloadSession.is_complete (s : DownloadSession) : Bool := s.completed

/-- `UploadSession` state.  `last_send_time` is written once in `__init__`
and never read, so it is omitted. -/
structure UploadSession where
  chunk_hash : List ℕ
  chunk_data : List ℕ
  peer_addr : AddressType
  next_seq : ℕ
  completed : Bool
  deriving Repr, DecidableEq

/-- `UploadSession.__init__(chunk_hash, chunk_data, peer_addr)`. -/
def UploadSession.init (chunk_hash chunk_data : List ℕ)
    (peer_addr : AddressType) : UploadSession :=
  { chunk_hash := chunk_hash, chunk_data := chunk_data,
    peer_addr := peer_addr, next_seq := 1, completed := false }

/-- `UploadSession.get_next_data()`: return the next `(seq, data)` slice, or
`None` (setting `completed` when the offset has run past the data).  The
Python method can mutate `self.completed`; we return the updated session. -/
def UploadSession.get_next_data (s : UploadSession) :
    Option (ℕ × List ℕ) × UploadSession :=
  if s.completed then (none, s)
  else
    let offset := (s.next_seq - 1) * MAX_PAYLOAD
    if s.chunk_data.length ≤ offset then (none, { s with completed := true })
    else
      (some (s.next_seq, (s.chunk_data.drop offset).take MAX_PAYLOAD), s)

/-- `UploadSession.handle_ack(ack_num)`: advance exactly when
`ack_num == next_seq`, setting `completed` when the next offset has run past
the data. -/
def UploadSession.handle_ack (s : UploadSession) (ack_num : ℕ) :
    Bool × UploadSession :=
  if ack_num = s.next_seq then
    let s := { s with next_seq := s.next_seq + 1 }
    let offset := (s.next_seq - 1) * MAX_PAYLOAD
    if s.chunk_data.length ≤ offset then
      (true, { s with completed := true })
    else
      (true, s)
  else
    (false, s)

/-- `UploadSession.is_complete()`. -/
def UploadSession.is_complete (s : UploadSession) : Bool := s.completed

/-- The module-level mutable state read and written by
`process_inbound_udp`: the session registries, the download bookkeeping and
the fields of the global `PeerContext` it consults (`has_chunks`,
`max_conn`).  `peer_run` always installs a context before any packet is
processed, so the `if g_context ...` guards are modelled as true. -/
structure GlobalState where
  download_sessions : List ((AddressType × List ℕ) × DownloadSession)
  upload_sessions : List (AddressType × UploadSession)
  needed_chunks : List (List ℕ)
  downloaded_chunks : List (List ℕ × List ℕ)
  has_chunks : List (List ℕ × List ℕ)
  max_conn : ℕ
  deriving Repr, DecidableEq

/-- Split a payload into its 20-byte digests:
`payload[i*20:(i+1)*20]` for `i < len(payload) // 20`. -/
def splitHashes (payload : List ℕ) : List (List ℕ) :=
  (List.range (payload.length / 20)).map
    (fun i => (payload.drop (20 * i)).take 20)

/-- In-place mutation of the download session stored at `key`. -/
def setDownload (l : List ((AddressType × List ℕ) × DownloadSession))
    (key : AddressType × List ℕ) (s : DownloadSession) :
    List ((AddressType × List ℕ) × DownloadSession) :=
  l.map (fun p => if p.1 = key then (key, s) else p)

/-- In-place mutation of the upload session stored at `addr`. -/
def setUpload (l : List (AddressType × UploadSession)) (addr : AddressType)
    (s : UploadSession) : List (AddressType × UploadSession) :=
  l.map (fun p => if p.1 = addr then (addr, s) else p)

/-- `dict.update`: overwrite existing keys in place, append new ones. -/
def dict_update (base upd : List (List ℕ × List ℕ)) :
    List (List ℕ × List ℕ) :=
  base.map (fun p =>
    match upd.lookup p.1 with
    | some v => (p.1, v)
    | none => p) ++
  upd.filter (fun p => (base.lookup p.1).isNone)

/-- The WHOHAS handler: compute the requested digests present in the local
inventory (in request order); refuse with DENIED when the upload-session
count has reached `max_conn`, otherwise offer the available digests with a
single IHAVE, or stay silent when none are available. -/
def whohas_branch (st : GlobalState) (from_addr : AddressType)
    (payload : List ℕ) : GlobalState × List (PacketOut × AddressType) :=
  let available_hashes := (splitHashes payload).filter
    (fun h => (st.has_chunks.lookup h).isSome)
  if st.max_conn ≤ st.upload_sessions.length then
    (st, [(Packet.build_packet PktType.DENIED 0 0 [], from_addr)])
  else if available_hashes ≠ [] then
    (st, [(Packet.build_packet PktType.IHAVE 0 0 available_hashes.flatten,
      from_addr)])
  else
    (st, [])

/-- The IHAVE handler: scan the offered digests in order; for the first one
still needed with no session for `(from_addr, digest)`, send a GET and
create a download session, then break out of the loop. -/
def ihave_branch (st : GlobalState) (from_addr : AddressType)
    (payload : List ℕ) : GlobalState × List (PacketOut × AddressType) :=
  match (splitHashes payload).find? (fun h =>
      decide (h ∈ st.needed_chunks) &&
      (st.download_sessions.lookup (from_addr, h)).isNone) with
  | some h =>
    ({ st with download_sessions := st.download_sessions ++
        [((from_addr, h), DownloadSession.init h from_addr)] },
      [(Packet.build_packet PktType.GET 0 0 h, from_addr)])
  | none => (st, [])

/-- The GET handler: when the first 20 payload bytes name a locally held
chunk and no upload session to `from_addr` exists, create one and send its
first DATA segment (if any). -/
def get_branch (st : GlobalState) (from_addr : AddressType)
    (payload : List ℕ) : GlobalState × List (PacketOut × AddressType) :=
  let chunk_hash := payload.take 20
  match st.has_chunks.lookup chunk_hash with
  | some chunk_data =>
    if (st.upload_sessions.lookup from_addr).isNone then
      let s := UploadSession.init chunk_hash chunk_data from_addr
      match s.get_next_data with
      | (some (seq, d), s') =>
        ({ st with upload_sessions := st.upload_sessions ++
            [(from_addr, s')] },
          [(Packet.build_packet PktType.DATA seq 0 d, from_addr)])
      | (none, s') =>
        ({ st with upload_sessions := st.upload_sessions ++
            [(from_addr, s')] }, [])
    else
      (st, [])
  | none => (st, [])

/-- The DATA handler: feed the payload to the first download session whose
key matches `from_addr`; on acceptance send an ACK carrying `ack = seq` and,
on completion, move the data to `downloaded_chunks`, drop the hash from
`needed_chunks`, delete the session and (once nothing more is needed) merge
the downloads into the inventory.  The output-file write is I/O-only and
omitted. -/
def data_branch (st : GlobalState) (from_addr : AddressType) (seq : ℕ)
    (payload : List ℕ) : GlobalState × List (PacketOut × AddressType) :=
  match st.download_sessions.find? (fun p => p.1.1 = from_addr) with
  | some (key, session) =>
    match session.add_data seq payload with
    | (true, s') =>
      let ackOut := [(Packet.build_packet PktType.ACK 0 seq [], from_addr)]
      if s'.is_complete then
        let st' := { st with
          downloaded_chunks :=
            st.downloaded_chunks ++ [(s'.chunk_hash, s'.data)],
          needed_chunks :=
            st.needed_chunks.filter (fun x => x ≠ s'.chunk_hash),
          download_sessions :=
            st.download_sessions.eraseP (fun p => p.1 = key) }
        if st'.needed_chunks = [] then
          ({ st' with has_chunks :=
            (dict_update st'.has_chunks st'.downloaded_chunks) }, ackOut)
        else
          (st', ackOut)
      else
        ({ st with
          download_sessions :=
            setDownload st.download_sessions key s' }, ackOut)
    | (false, _) => (st, [])
  | none => (st, [])

/-- The ACK handler: feed the ack number to the upload session for
`from_addr` (if any); on advance, either send the next DATA segment or, on
completion, delete the session. -/
def ack_branch (st : GlobalState) (from_addr : AddressType) (ack : ℕ) :
    GlobalState × List (PacketOut × AddressType) :=
  match st.upload_sessions.lookup from_addr with
  | some session =>
    match session.handle_ack ack with
    | (true, s') =>
      if ¬ s'.is_complete then
        match s'.get_next_data with
        | (some (seq, d), s'') =>
          ({ st with
            upload_sessions :=
              setUpload st.upload_sessions from_addr s'' },
            [(Packet.build_packet PktType.DATA seq 0 d, from_addr)])
        | (none, s'') =>
          ({ st with
            upload_sessions :=
              setUpload st.upload_sessions from_addr s'' }, [])
      else
        ({ st with
          upload_sessions :=
            st.upload_sessions.eraseP (fun p => p.1 = from_addr) }, [])
    | (false, _) => (st, [])
  | none => (st, [])

/-- `process_inbound_udp`: parse the header, then route on the packet type
to the handler for WHOHAS, IHAVE, DENIED, GET, DATA or ACK; any other type
falls through the `if`/`elif` chain with no effect.  The result is the
updated global state plus the packets passed to `sock.sendto` (in order); a
header too short for `struct.unpack` raises `struct.error`, which no
handler catches, modelled by `Except.error ()`. -/
def process_inbound_udp (st : GlobalState) (from_addr : AddressType)
    (pkt : List ℕ) :
    Except Unit (GlobalState × List (PacketOut × AddressType)) :=
  match Packet.parse_header pkt with
  | none => Except.error ()
  | some (pkt_type, _hlen, _plen, seq, ack) =>
    let payload := pkt.drop HEADER_LEN
    if pkt_type = PktType.WHOHAS then
      Except.ok (whohas_branch st from_addr payload)
    else if pkt_type = PktType.IHAVE then
      Except.ok (ihave_branch st from_addr payload)
    else if pkt_type = PktType.DENIED then
      Except.ok (st, [])
    else if pkt_type = PktType.GET then
      Except.ok (get_branch st from_addr payload)
    else if pkt_type = PktType.DATA then
      Except.ok (data_branch st from_addr seq payload)
    else if pkt_type = PktType.ACK then
      Except.ok (ack_branch st from_addr ack)
    else
      Except.ok (st, [])

/-- A concrete state with one active upload session and `max_conn = 1`,
used to evaluate the admission-limit behaviour. -/
def egBusyState : GlobalState :=
  { download_sessions := []
    upload_sessions := [(0, UploadSession.init [1] [7] 0)]
    needed_chunks := []
    downloaded_chunks := []
    has_chunks := []
    max_conn := 1 }

/-- A concrete state with empty registries. -/
def egEmptyState : GlobalState :=
  { download_sessions := []
    upload_sessions := []
    needed_chunks := []
    downloaded_chunks := []
    has_chunks := []
    max_conn := 1 }

/-- A concrete 12-byte header with the unknown packet type 6. -/
def egUnknownPkt : List ℕ := [6, 12, 0, 12, 0, 0, 0, 0, 0, 0, 0, 0]

/-- A concrete 12-byte WHOHAS header (type 0) with no payload. -/
def egWhohasPkt : List ℕ := [0, 12, 0, 12, 0, 0, 0, 0, 0, 0, 0, 0]

/-- Observation of a single peer's upload interaction: the upload-session
slot for that peer, the sequence numbers of the DATA packets sent to it so
far, and the ack numbers accepted (`handle_ack` returned `True`) so far.
The last two lists are bookkeeping added for the statement of the
stop-and-wait property; the session slot evolves exactly as the GET and ACK
branches evolve `g_upload_sessions[from_addr]`. -/
structure UploadObs where
  sess : Option UploadSession
  sent : List ℕ
  acked : List ℕ
  deriving Repr, DecidableEq

/-- The GET branch's session-creation path for a peer requesting the
locally held chunk `cd` (no prior session): create the session, send its
first segment if any. -/
def sessCreate (h cd : List ℕ) (addr : AddressType) :
    UploadObs × List PacketOut :=
  let s := UploadSession.init h cd addr
  match s.get_next_data with
  | (some (seq, d), s') =>
    ({ sess := some s', sent := [seq], acked := [] },
      [Packet.build_packet PktType.DATA seq 0 d])
  | (none, s') =>
    ({ sess := some s', sent := [], acked := [] }, [])

/-- The ACK branch projected onto one peer's session slot (same logic as
`ack_branch`), with the send/ack bookkeeping. -/
def obsAck (o : UploadObs) (a : ℕ) : UploadObs × List PacketOut :=
  match o.sess with
  | none => (o, [])
  | some session =>
    match session.handle_ack a with
    | (true, s') =>
      if ¬ s'.is_complete then
        match s'.get_next_data with
        | (some (seq, d), s'') =>
          ({
            sess := some s''
            sent := o.sent ++ [seq]
            acked := o.acked ++ [a] },
            [Packet.build_packet PktType.DATA seq 0 d])
        | (none, s'') =>
          ({ sess := some s'', sent := o.sent, acked := o.acked ++ [a] },
            [])
      else
        ({ sess := none, sent := o.sent, acked := o.acked ++ [a] }, [])
    | (false, _) => (o, [])

/-- The observation points during one upload session's lifetime: the state
right after the GET branch creates the session, then after each processed
ACK (matching or not).  The other packet handlers do not touch the upload
registry for this peer, and a later GET would start a new session (a new
lifetime of its own). -/
inductive SessReach (h cd : List ℕ) (addr : AddressType) : UploadObs → Prop
  | created : SessReach h cd addr (sessCreate h cd addr).1
  | ack (a : ℕ) {o : UploadObs} (prev : SessReach h cd addr o) :
      SessReach h cd addr (obsAck o a).1

/-- Number of DATA segments sent but not yet acknowledged. -/
def unackedCount (o : UploadObs) : ℕ :=
  (o.sent.filter (fun q => decide (q ∉ o.acked))).length

/-- Inductive invariant of an upload session's lifetime: segments are sent
in order `1, 2, …`, acks accepted in order, and the sent prefix never runs
more than one segment ahead of the acked prefix. -/
def SessInv (o : UploadObs) : Prop :=
  match o.sess with
  | none =>
    ∃ k j, o.sent = List.range' 1 k ∧ o.acked = List.range' 1 j ∧ k ≤ j
  | some s =>
    ∃ k, o.sent = List.range' 1 k ∧
      o.acked = List.range' 1 (s.next_seq - 1) ∧ 1 ≤ s.next_seq ∧
      (k = s.next_seq - 1 ∨ k = s.next_seq) ∧
      (s.completed = false → k = s.next_seq)

end Peer

namespace RDT

open CongestionControl Peer

/-!
The full sliding-window sender session (RTT estimator, window admission,
fast retransmit) is exercised by the repository's own tests
(`test_rdt_4_3.py`, which uses `UploadSession` fields `estimated_rtt`,
`dev_rtt`, `timeout_interval`, `base_seq`, `next_seq_num`,
`unacked_buffer`, `cc` and methods `update_rtt`, `send_new_packets`,
`handle_ack`, `check_timeout`), but the implementation itself is not part
of the sources; only the skeleton stop-and-wait `UploadSession` is.  The
definitions in this namespace are therefore modelled from the spec
(sections 4.3 and 4.4), with the interface names taken from the tests.
-/

/-- Modelled from the spec: one entry of the sender's `unacked` map,
`{data, send_time, was_retransmitted}`. -/
structure SegmentEntry where
  data : List ℕ
  send_time : ℚ
  was_retransmitted : Bool
  deriving Repr, DecidableEq

/-- Modelled from the spec: the sender session over a chunk already split
into its ordered 1-indexed segments ("Segments the chunk into ordered
segments starting at sequence 1"), with the sliding-window bookkeeping, the
congestion controller and the RTT estimator state. -/
structure SenderSession where
  segments : List (List ℕ)
  base_seq : ℕ
  next_seq_num : ℕ
  unacked_buffer : List (ℕ × SegmentEntry)
  cc : CongestionController
  estimated_rtt : ℚ
  dev_rtt : ℚ
  timeout_interval : ℚ
  deriving Repr, DecidableEq

/-- Modelled from the spec: initial sender state; `estimated_rtt = 0.5`,
`dev_rtt = 0.25`, `timeout_interval = estimated_rtt + 4 · dev_rtt = 1.5`,
window starting at segment 1 with nothing outstanding. -/
def SenderSession.init (segments : List (List ℕ)) : SenderSession :=
  { segments := segments
    base_seq := 1
    next_seq_num := 1
    unacked_buffer := []
    cc := CongestionController.init
    estimated_rtt := 0.5
    dev_rtt := 0.25
    timeout_interval := 0.5 + 4 * 0.25 }

/-- Modelled from the spec: the RTT estimator update on a valid sample,
using the updated `estimated_rtt` inside the deviation term. -/
def SenderSession.update_rtt (s : SenderSession) (sample : ℚ) :
    SenderSession :=
  let estimated_rtt := 0.85 * s.estimated_rtt + 0.15 * sample
  let dev_rtt := 0.70 * s.dev_rtt + 0.30 * |sample - estimated_rtt|
  { s with
    estimated_rtt := estimated_rtt
    dev_rtt := dev_rtt
    timeout_interval := estimated_rtt + 4 * dev_rtt }

/-- In-place mutation of the unacked-map entry stored at `k`. -/
def setEntry (l : List (ℕ × SegmentEntry)) (k : ℕ) (e : SegmentEntry) :
    List (ℕ × SegmentEntry) :=
  l.map (fun p => if p.1 = k then (k, e) else p)

/-- Modelled from the spec: the body of `send_new_packets` — while
`next_seq_num − base_seq < get_window()` and an unsent segment remains,
send it, record `{send_time = now, was_retransmitted = false}`, increment
`next_seq_num`.  The loop is expressed with explicit fuel; each iteration
strictly grows `next_seq_num − base_seq`, so any fuel of at least
`get_window()` iterations is enough. -/
def SenderSession.send_loop :
    ℕ → SenderSession → ℚ → SenderSession × List PacketOut
  | 0, s, _ => (s, [])
  | fuel + 1, s, now =>
    if (s.next_seq_num : ℤ) - s.base_seq < s.cc.get_cwnd then
      match s.segments.get? (s.next_seq_num - 1) with
      | some d =>
        let s' := { s with
          next_seq_num := s.next_seq_num + 1
          unacked_buffer := s.unacked_buffer ++
            [(s.next_seq_num,
              { data := d
                send_time := now
                was_retransmitted := false })] }
        let rest := SenderSession.send_loop fuel s' now
        (rest.1,
          Packet.build_packet PktType.DATA s.next_seq_num 0 d :: rest.2)
      | none => (s, [])
    else (s, [])

/-- Modelled from the spec: `send_new_packets()`. -/
def SenderSession.send_new_packets (s : SenderSession) (now : ℚ) :
    SenderSession × List PacketOut :=
  SenderSession.send_loop (s.cc.get_cwnd.toNat + 1) s now

/-- Modelled from the spec: `handle_ack(ack_num)` — per-segment acks.  On
`ack_num == base_seq`: feed the RTT sample when the entry was never
retransmitted, slide the base, drop the entry, `on_new_ack()`, then refill
the window.  On `ack_num < base_seq`: `on_duplicate_ack()`, and on the
fast-retransmit signal resend the segment at the *current* `base_seq` with
`was_retransmitted = true` and a refreshed `send_time`.  Anything else is
ignored. -/
def SenderSession.handle_ack (s : SenderSession) (ack_num : ℕ) (now : ℚ) :
    SenderSession × List PacketOut :=
  if ack_num = s.base_seq then
    let s :=
      match s.unacked_buffer.lookup ack_num with
      | some e =>
        if e.was_retransmitted then s else s.update_rtt (now - e.send_time)
      | none => s
    let s := { s with
      base_seq := s.base_seq + 1
      unacked_buffer := s.unacked_buffer.eraseP (fun p => p.1 = ack_num)
      cc := s.cc.on_new_ack }
    s.send_new_packets now
  else if ack_num < s.base_seq then
    let r := s.cc.on_duplicate_ack
    let s := { s with cc := r.2 }
    if r.1 then
      match s.unacked_buffer.lookup s.base_seq with
      | some e =>
        ({ s with
          unacked_buffer := setEntry s.unacked_buffer s.base_seq
            { e with send_time := now, was_retransmitted := true } },
          [Packet.build_packet PktType.DATA s.base_seq 0 e.data])
      | none => (s, [])
    else
      (s, [])
  else
    (s, [])

/-- Modelled from the spec: `check_timeout()` — when the oldest outstanding
entry is older than `timeout_interval`, `on_timeout()` and resend that
single segment with a refreshed `send_time` and `was_retransmitted = true`;
the base is not advanced. -/
def SenderSession.check_timeout (s : SenderSession) (now : ℚ) :
    SenderSession × List PacketOut :=
  match s.unacked_buffer.lookup s.base_seq with
  | some e =>
    if s.timeout_interval < now - e.send_time then
      let s := { s with cc := s.cc.on_timeout }
      ({ s with
        unacked_buffer := setEntry s.unacked_buffer s.base_seq
          { e with send_time := now, was_retransmitted := true } },
        [Packet.build_packet PktType.DATA s.base_seq 0 e.data])
    else
      (s, [])
  | none => (s, [])

/-- Modelled from the spec: the sender session right after the GET handler
creates it and sends its first window. -/
def senderStart (segments : List (List ℕ)) (now : ℚ) : SenderSession :=
  ((SenderSession.init segments).send_new_packets now).1

/-- Events delivered to a sender session after creation. -/
inductive SenderEvent where
  | ackEvent (a : ℕ) (now : ℚ)
  | timeoutEvent (now : ℚ)

/-- One sender transition per delivered event. -/
def SenderEvent.step (e : SenderEvent) (s : SenderSession) : SenderSession :=
  match e with
  | .ackEvent a now => (s.handle_ack a now).1
  | .timeoutEvent now => (s.check_timeout now).1

/-- The sender states observable during a session's lifetime. -/
inductive SenderReach (segments : List (List ℕ)) : SenderSession → Prop
  | start (now : ℚ) : SenderReach segments (senderStart segments now)
  | step (e : SenderEvent) {s : SenderSession} (prev : SenderReach segments s) :
      SenderReach segments (e.step s)

/-- A concrete sender state: segments 2 and 3 outstanding, two duplicate
acks already counted. -/
def egC5State : SenderSession :=
  { segments := [[0], [0], [0]]
    base_seq := 2
    next_seq_num := 4
    unacked_buffer :=
      [(2, { data := [0], send_time := 0, was_retransmitted := false }),
        (3, { data := [0], send_time := 0, was_retransmitted := false })]
    cc := { cwnd := 2, ssthresh := 64, dup_ack_count := 2 }
    estimated_rtt := 0.5
    dev_rtt := 0.25
    timeout_interval := 1.5 }

/-- Three one-byte segments, enough to open a window of two. -/
def egSegs : List (List ℕ) := [[0], [0], [0]]

/-- The sender state after: creation (sends segment 1), the new ack for 1
(window grows to 2, segments 2 and 3 go out), then three duplicate acks for
1 (the third fires fast retransmit and resets `cwnd` to 1). -/
def egC4State : SenderSession :=
  ((((((senderStart egSegs 0).handle_ack 1 0).1.handle_ack
    1 0).1.handle_ack 1 0).1.handle_ack 1 0).1)

end RDT

namespace CongestionControl

/-- For `0 ≤ q`, truncating division of numerator by denominator (Python
`int()`) agrees with the floor. -/
lemma tdiv_num_den_eq_floor (q : ℚ) (h : 0 ≤ q) :
    Int.tdiv q.num (q.den : ℤ) = ⌊q⌋ := by
  rw [Rat.floor_def]
  rw [Int.tdiv_eq_ediv (Rat.num_nonneg.mpr h) (by positivity)]

lemma ccInv_init : CCInv CongestionController.init := by
  unfold CCInv CongestionController.init; norm_num

lemma ccInv_on_new_ack {c : CongestionController} (h : CCInv c) :
    CCInv c.on_new_ack := by
  obtain ⟨h1, h2, _⟩ := h
  unfold CCInv CongestionController.on_new_ack
  dsimp only
  split
  · exact ⟨by dsimp only; linarith, h2, le_refl 0⟩
  · refine ⟨?_, h2, le_refl 0⟩
    have hpos : (0 : ℚ) < c.cwnd := by linarith
    have : 0 < 1 / c.cwnd := by positivity
    dsimp only
    linarith

lemma ccInv_handle_loss {c : CongestionController} (h : CCInv c) :
    CCInv c.handle_loss_event := by
  obtain ⟨_, _, h3⟩ := h
  exact ⟨le_refl 1, le_max_right _ 2, h3⟩

lemma ccInv_on_duplicate_ack {c : CongestionController} (h : CCInv c) :
    CCInv (c.on_duplicate_ack).2 := by
  obtain ⟨h1, h2, h3⟩ := h
  unfold CongestionController.on_duplicate_ack
  dsimp only
  split
  · exact ccInv_handle_loss ⟨h1, h2, by dsimp only; linarith⟩
  · exact ⟨h1, h2, by dsimp only; linarith⟩

lemma ccInv_step {c : CongestionController} (e : CCEvent) (h : CCInv c) :
    CCInv (e.step c) := by
  cases e with
  | newAck => exact ccInv_on_new_ack h
  | dupAck => exact ccInv_on_duplicate_ack h
  | timeout => exact ccInv_handle_loss h

lemma ccInv_runCC (es : List CCEvent) {c : CongestionController}
    (h : CCInv c) : CCInv (runCC es c) := by
  induction es generalizing c with
  | nil => exact h
  | cons e es ih => exact ih (ccInv_step e h)

end CongestionControl

namespace Peer

lemma process_err {st : GlobalState} {from_addr : AddressType}
    {pkt : List ℕ} (h : Packet.parse_header pkt = none) :
    process_inbound_udp st from_addr pkt = Except.error () := by
  simp only [process_inbound_udp, h]

lemma process_whohas {st : GlobalState} {from_addr : AddressType}
    {pkt : List ℕ} {hl pl seq ack : ℕ}
    (h : Packet.parse_header pkt = some (PktType.WHOHAS, hl, pl, seq, ack)) :
    process_inbound_udp st from_addr pkt =
      Except.ok (whohas_branch st from_addr (pkt.drop HEADER_LEN)) := by
  simp only [process_inbound_udp, h]
  norm_num [PktType.WHOHAS]

lemma process_ihave {st : GlobalState} {from_addr : AddressType}
    {pkt : List ℕ} {hl pl seq ack : ℕ}
    (h : Packet.parse_header pkt = some (PktType.IHAVE, hl, pl, seq, ack)) :
    process_inbound_udp st from_addr pkt =
      Except.ok (ihave_branch st from_addr (pkt.drop HEADER_LEN)) := by
  simp only [process_inbound_udp, h]
  norm_num [PktType.WHOHAS, PktType.IHAVE]

lemma process_get {st : GlobalState} {from_addr : AddressType}
    {pkt : List ℕ} {hl pl seq ack : ℕ}
    (h : Packet.parse_header pkt = some (PktType.GET, hl, pl, seq, ack)) :
    process_inbound_udp st from_addr pkt =
      Except.ok (get_branch st from_addr (pkt.drop HEADER_LEN)) := by
  simp only [process_inbound_udp, h]
  norm_num [PktType.WHOHAS, PktType.IHAVE, PktType.DENIED, PktType.GET]

lemma process_data {st : GlobalState} {from_addr : AddressType}
    {pkt : List ℕ} {hl pl seq ack : ℕ}
    (h : Packet.parse_header pkt = some (PktType.DATA, hl, pl, seq, ack)) :
    process_inbound_udp st from_addr pkt =
      Except.ok (data_branch st from_addr seq (pkt.drop HEADER_LEN)) := by
  simp only [process_inbound_udp, h]
  norm_num [PktType.WHOHAS, PktType.IHAVE, PktType.DENIED, PktType.GET,
    PktType.DATA]

lemma process_ack {st : GlobalState} {from_addr : AddressType}
    {pkt : List ℕ} {hl pl seq ack : ℕ}
    (h : Packet.parse_header pkt = some (PktType.ACK, hl, pl, seq, ack)) :
    process_inbound_udp st from_addr pkt =
      Except.ok (ack_branch st from_addr ack) := by
  simp only [process_inbound_udp, h]
  norm_num [PktType.WHOHAS, PktType.IHAVE, PktType.DENIED, PktType.GET,
    PktType.DATA, PktType.ACK]

lemma handle_ack_eq (s : UploadSession) (a : ℕ) :
    s.handle_ack a =
      (if a = s.next_seq then
        (true, { s with
          next_seq := s.next_seq + 1
          completed := (if s.chunk_data.length ≤ s.next_seq * MAX_PAYLOAD
            then true else s.completed) })
      else (false, s)) := by
  unfold UploadSession.handle_ack
  dsimp only
  split
  · rw [Nat.add_sub_cancel]
    split
    · rfl
    · rfl
  · rfl

lemma get_next_data_completed {s : UploadSession} (h : s.completed = true) :
    s.get_next_data = (none, s) := by
  unfold UploadSession.get_next_data
  rw [if_pos h]

lemma get_next_data_done {s : UploadSession} (h : s.completed = false)
    (hlen : s.chunk_data.length ≤ (s.next_seq - 1) * MAX_PAYLOAD) :
    s.get_next_data = (none, { s with completed := true }) := by
  unfold UploadSession.get_next_data
  rw [if_neg (by simp [h])]
  dsimp only
  rw [if_pos hlen]

lemma get_next_data_more {s : UploadSession} (h : s.completed = false)
    (hlen : ¬ s.chunk_data.length ≤ (s.next_seq - 1) * MAX_PAYLOAD) :
    s.get_next_data = (some (s.next_seq,
      (s.chunk_data.drop ((s.next_seq - 1) * MAX_PAYLOAD)).take MAX_PAYLOAD),
      s) := by
  unfold UploadSession.get_next_data
  rw [if_neg (by simp [h])]
  dsimp only
  rw [if_neg hlen]

lemma range'_succ_concat (n : ℕ) :
    List.range' 1 (n + 1) = List.range' 1 n ++ [1 + n] := by
  simpa using @List.range'_concat 1 1 n

lemma filter_unacked_sub (k j : ℕ) (hkj : k ≤ j) :
    (List.range' 1 k).filter (fun q => decide (q ∉ List.range' 1 j)) =
      [] := by
  rw [List.filter_eq_nil_iff]
  intro a ha
  simp only [List.mem_range'_1] at ha
  simp only [decide_eq_true_eq, Decidable.not_not, List.mem_range'_1]
  omega

lemma unacked_le_one_of_inv {o : UploadObs} (h : SessInv o) :
    unackedCount o ≤ 1 := by
  unfold unackedCount
  unfold SessInv at h
  rcases ho : o.sess with _ | s
  · rw [ho] at h
    obtain ⟨k, j, hsent, hacked, hkj⟩ := h
    rw [hsent, hacked, filter_unacked_sub k j hkj]
    simp
  · rw [ho] at h
    obtain ⟨k, hsent, hacked, h1, hk, _⟩ := h
    rcases hk with rfl | rfl
    · rw [hsent, hacked, filter_unacked_sub _ _ le_rfl]
      simp
    · obtain ⟨m, hm⟩ : ∃ m, s.next_seq = m + 1 := ⟨s.next_seq - 1, by omega⟩
      rw [hsent, hacked, hm]
      rw [Nat.add_sub_cancel, range'_succ_concat m, List.filter_append,
        filter_unacked_sub m m le_rfl]
      simp [List.mem_range'_1]

lemma sessInv_created (ch cd : List ℕ) (addr : AddressType) :
    SessInv (sessCreate ch cd addr).1 := by
  unfold sessCreate
  dsimp only
  by_cases hcd : cd.length ≤ 0
  · rw [get_next_data_done rfl (by simpa [UploadSession.init] using hcd)]
    exact ⟨0, rfl, rfl, le_refl 1, Or.inl rfl, by intro hf; simp at hf⟩
  · rw [get_next_data_more rfl (by simpa [UploadSession.init] using hcd)]
    exact ⟨1, rfl, rfl, le_refl 1, Or.inr rfl, fun _ => rfl⟩

lemma acked_concat (nxt : ℕ) (h1 : 1 ≤ nxt) :
    List.range' 1 (nxt - 1) ++ [nxt] = List.range' 1 nxt := by
  obtain ⟨m, rfl⟩ : ∃ m, nxt = m + 1 := ⟨nxt - 1, by omega⟩
  rw [Nat.add_sub_cancel, range'_succ_concat m]
  simp [Nat.add_comm]

lemma sessInv_ack {o : UploadObs} (a : ℕ) (hInv : SessInv o) :
    SessInv (obsAck o a).1 := by
  unfold obsAck
  rcases ho : o.sess with _ | s
  · simp only [ho]
    exact hInv
  · simp only [ho]
    unfold SessInv at hInv
    rw [ho] at hInv
    obtain ⟨k, hsent, hacked, h1, hk, hcmp⟩ := hInv
    rw [handle_ack_eq]
    by_cases ha : a = s.next_seq
    · rw [if_pos ha]
      by_cases hlen : s.chunk_data.length ≤ s.next_seq * MAX_PAYLOAD
      · rw [if_pos hlen]
        dsimp only [UploadSession.is_complete]
        norm_num
        refine ⟨k, s.next_seq, hsent, ?_, by omega⟩
        rw [hacked, ha, acked_concat s.next_seq h1]
      · rw [if_neg hlen]
        rcases hc : s.completed with _ | _
        · have hknext := hcmp hc
          dsimp only [UploadSession.is_complete]
          norm_num
          rw [get_next_data_more rfl (by simpa using hlen)]
          dsimp only
          unfold SessInv
          dsimp only
          have hcat := acked_concat (s.next_seq + 1) (by omega)
          rw [Nat.add_sub_cancel] at hcat
          refine ⟨s.next_seq + 1, ?_, ?_, by omega, ?_, fun _ => rfl⟩
          · rw [hsent, hknext, hcat]
          · rw [Nat.add_sub_cancel, hacked, ha,
              acked_concat s.next_seq h1]
          · right
            rfl
        · dsimp only [UploadSession.is_complete]
          norm_num
          refine ⟨k, s.next_seq, hsent, ?_, by omega⟩
          rw [hacked, ha, acked_concat s.next_seq h1]
    · rw [if_neg ha]
      dsimp only
      rw [SessInv, ho]
      exact ⟨k, hsent, hacked, h1, hk, hcmp⟩

lemma sessReach_inv {ch cd : List ℕ} {addr : AddressType} {o : UploadObs}
    (hr : SessReach ch cd addr o) : SessInv o := by
  induction hr with
  | created => exact sessInv_created ch cd addr
  | ack a prev ih => exact sessInv_ack a ih

end Peer
namespace RDT

open CongestionControl Peer

/-- `List.lookup` after an in-place `setEntry` at a present key returns the
new entry. -/
lemma lookup_setEntry {l : List (ℕ × SegmentEntry)} {k : ℕ}
    {e : SegmentEntry} (hl : l.lookup k = some e) (v : SegmentEntry) :
    (setEntry l k v).lookup k = some v := by
  induction l with
  | nil => simp [List.lookup] at hl
  | cons p l ih =>
    rcases p with ⟨k1, e1⟩
    by_cases hk : k = k1
    · subst hk
      show List.lookup k
        ((if (k, e1).1 = k then (k, v) else (k, e1)) :: setEntry l k v) =
          some v
      rw [if_pos rfl, List.lookup, beq_self_eq_true]
    · have hl1 : List.lookup k l = some e := by
        rw [List.lookup, beq_eq_false_iff_ne.mpr hk] at hl
        exact hl
      have hne : ¬ k1 = k := fun h => hk h.symm
      show List.lookup k
        ((if k1 = k then (k, v) else (k1, e1)) :: setEntry l k v) = some v
      rw [if_neg hne, List.lookup, beq_eq_false_iff_ne.mpr hk]
      exact ih hl1

/-- The send loop never touches `base_seq` or the congestion state; it
admits a new segment only while `next_seq_num − base_seq` is below the
window, and so preserves `next_seq_num − base_seq ≤ get_cwnd()`. -/
lemma send_loop_spec (fuel : ℕ) (s : SenderSession) (now : ℚ) :
    (SenderSession.send_loop fuel s now).1.base_seq = s.base_seq ∧
    (SenderSession.send_loop fuel s now).1.cc = s.cc ∧
    (((s.next_seq_num : ℤ) - s.base_seq ≤ s.cc.get_cwnd) →
      ((SenderSession.send_loop fuel s now).1.next_seq_num : ℤ) -
        s.base_seq ≤ s.cc.get_cwnd) ∧
    ((SenderSession.send_loop fuel s now).2 ≠ [] →
      (s.next_seq_num : ℤ) - s.base_seq < s.cc.get_cwnd) := by
  induction fuel generalizing s with
  | zero => exact ⟨rfl, rfl, fun h => h, fun h => absurd rfl h⟩
  | succ n ih =>
    rw [SenderSession.send_loop]
    by_cases hw : (s.next_seq_num : ℤ) - s.base_seq < s.cc.get_cwnd
    · rw [if_pos hw]
      rcases hseg : s.segments.get? (s.next_seq_num - 1) with _ | d
      · exact ⟨rfl, rfl, fun h => h, fun _ => hw⟩
      · dsimp only
        obtain ⟨ihb, ihc, ihn, _⟩ := ih { s with
          next_seq_num := s.next_seq_num + 1
          unacked_buffer := s.unacked_buffer ++
            [(s.next_seq_num,
              { data := d
                send_time := now
                was_retransmitted := false })] }
        refine ⟨ihb, ihc, fun _ => ?_, fun _ => hw⟩
        have := ihn (by dsimp only; push_cast; omega)
        dsimp only at this
        simpa using this
    · rw [if_neg hw]
      exact ⟨rfl, rfl, fun h => h, fun h => absurd rfl h⟩

end RDT
namespace Claims

open CongestionControl

/-- C1: every `on_new_ack()` call resets `dup_ack_count` to 0 and then grows
`cwnd` by exactly `1.0` when `cwnd < ssthresh`, and by exactly `1.0/cwnd`
otherwise; from the initial state (`cwnd = 1.0`, `ssthresh = 64`) one call
yields `cwnd = 2.0`. -/
theorem c1_on_new_ack (c : CongestionController) :
    (c.on_new_ack).dup_ack_count = 0 ∧
    (c.cwnd < (c.ssthresh : ℚ) → (c.on_new_ack).cwnd = c.cwnd + 1) ∧
    (¬ c.cwnd < (c.ssthresh : ℚ) →
      (c.on_new_ack).cwnd = c.cwnd + 1 / c.cwnd) ∧
    (CongestionController.init.on_new_ack).cwnd = 2 := by
  unfold CongestionController.on_new_ack
  dsimp only
  refine ⟨?_, ?_, ?_, ?_⟩
  · split <;> rfl
  · intro h; rw [if_pos h]
  · intro h; rw [if_neg h]
  · norm_num [CongestionController.init]

/-- Witness for C1 at the initial state: the slow-start hypothesis holds and
`cwnd` becomes `2.0`. -/
theorem c1_on_new_ack_witness :
    CongestionController.init.cwnd < (CongestionController.init.ssthresh : ℚ) ∧
    (CongestionController.init.on_new_ack).cwnd =
      CongestionController.init.cwnd + 1 := by
  have h : CongestionController.init.cwnd <
      (CongestionController.init.ssthresh : ℚ) := by
    norm_num [CongestionController.init]
  exact ⟨h, (c1_on_new_ack CongestionController.init).2.1 h⟩

/-- C2: `on_timeout()`, and the `on_duplicate_ack()` call that makes
`dup_ack_count` reach exactly 3, set `ssthresh = max(floor(cwnd/2), 2)` and
`cwnd = 1.0`; `on_duplicate_ack()` returns `true` exactly when the
incremented count equals 3. -/
theorem c2_loss_events (c : CongestionController) :
    (c.on_timeout).ssthresh = max ⌊c.cwnd / 2⌋ 2 ∧
    (c.on_timeout).cwnd = 1 ∧
    (c.dup_ack_count + 1 = 3 →
      (c.on_duplicate_ack).1 = true ∧
      (c.on_duplicate_ack).2.ssthresh = max ⌊c.cwnd / 2⌋ 2 ∧
      (c.on_duplicate_ack).2.cwnd = 1) ∧
    (c.dup_ack_count + 1 ≠ 3 →
      (c.on_duplicate_ack).1 = false ∧
      (c.on_duplicate_ack).2 =
        { c with dup_ack_count := c.dup_ack_count + 1 }) := by
  refine ⟨rfl, rfl, ?_, ?_⟩
  · intro h
    unfold CongestionController.on_duplicate_ack
    dsimp only
    rw [if_pos h]
    exact ⟨rfl, rfl, rfl⟩
  · intro h
    unfold CongestionController.on_duplicate_ack
    dsimp only
    rw [if_neg h]
    exact ⟨rfl, rfl⟩

/-- Witness for C2 at a state whose third duplicate ack fires: with
`cwnd = 10`, `dup_ack_count = 2`, the call returns `true`, sets
`ssthresh = 5` and resets `cwnd = 1`. -/
theorem c2_loss_events_witness :
    (2 : ℤ) + 1 = 3 ∧
    (({ cwnd := 10, ssthresh := 64, dup_ack_count := 2 } :
        CongestionController).on_duplicate_ack).1 = true ∧
    (({ cwnd := 10, ssthresh := 64, dup_ack_count := 2 } :
        CongestionController).on_duplicate_ack).2.ssthresh = 5 ∧
    (({ cwnd := 10, ssthresh := 64, dup_ack_count := 2 } :
        CongestionController).on_duplicate_ack).2.cwnd = 1 := by
  have h := (c2_loss_events
    { cwnd := 10, ssthresh := 64, dup_ack_count := 2 }).2.2.1 (by norm_num)
  refine ⟨by norm_num, h.1, ?_, h.2.2⟩
  rw [h.2.1]
  norm_num

/-- C9: from the initial congestion state, every finite sequence of
`on_new_ack`, `on_duplicate_ack` and `on_timeout` calls preserves
`cwnd ≥ 1.0`, `ssthresh ≥ 2` and `dup_ack_count ≥ 0`, and at every reachable
state `get_cwnd` equals the integer floor of `cwnd`. -/
theorem c9_invariants (es : List CCEvent) :
    1 ≤ (runCC es CongestionController.init).cwnd ∧
    2 ≤ (runCC es CongestionController.init).ssthresh ∧
    0 ≤ (runCC es CongestionController.init).dup_ack_count ∧
    (runCC es CongestionController.init).get_cwnd =
      ⌊(runCC es CongestionController.init).cwnd⌋ := by
  have h := ccInv_runCC es ccInv_init
  obtain ⟨h1, h2, h3⟩ := h
  refine ⟨h1, h2, h3, ?_⟩
  exact tdiv_num_den_eq_floor _ (by linarith)

open Peer

/-- C6: `add_data(seq, payload)` accepts exactly when `seq == expected_seq`;
on acceptance it appends the payload, advances `expected_seq` and marks the
session complete once the assembled size reaches the chunk size; on any
other `seq` it returns `false` leaving the session unchanged; and the DATA
handler sends an acknowledgment carrying `ack = seq` exactly in the
accepting case. -/
theorem c6_receiver_in_order (s : DownloadSession) (seq : ℕ)
    (payload : List ℕ) :
    ((s.add_data seq payload).1 = true ↔ seq = s.expected_seq) ∧
    (seq = s.expected_seq →
      (s.add_data seq payload).2.data = s.data ++ payload ∧
      (s.add_data seq payload).2.expected_seq = s.expected_seq + 1 ∧
      ((s.add_data seq payload).2.completed = true ↔
        (CHUNK_DATA_SIZE ≤ (s.data ++ payload).length ∨
          s.completed = true))) ∧
    (seq ≠ s.expected_seq → s.add_data seq payload = (false, s)) ∧
    (∀ (st : GlobalState) (from_addr : AddressType) (pkt : List ℕ)
        (hl pl ack : ℕ) (key : AddressType × List ℕ),
      Packet.parse_header pkt = some (PktType.DATA, hl, pl, seq, ack) →
      st.download_sessions.find? (fun p => p.1.1 = from_addr) =
        some (key, s) →
      ∃ st', process_inbound_udp st from_addr pkt = Except.ok (st',
        if (s.add_data seq (pkt.drop HEADER_LEN)).1 then
          [(Packet.build_packet PktType.ACK 0 seq [], from_addr)]
        else [])) := by
  refine ⟨?_, ?_, ?_, ?_⟩
  · unfold DownloadSession.add_data
    dsimp only
    split
    · simpa
    · simpa
  · intro h
    unfold DownloadSession.add_data
    rw [if_pos h]
    dsimp only
    refine ⟨rfl, rfl, ?_⟩
    split
    · simp_all
    · simp_all
  · intro h
    unfold DownloadSession.add_data
    rw [if_neg h]
  · intro st from_addr pkt hl pl ack key hparse hfind
    rw [process_data hparse]
    unfold data_branch
    simp only [hfind]
    rcases hsplit : s.add_data seq (pkt.drop HEADER_LEN) with ⟨b, s2⟩
    cases b with
    | false => exact ⟨st, rfl⟩
    | true =>
      dsimp only
      rcases hc : s2.is_complete with _ | _
      · norm_num
      · norm_num
        split
        · exact ⟨_, rfl⟩
        · exact ⟨_, rfl⟩

/-- Witness for C6: a fresh session accepts segment 1 and appends its
payload. -/
theorem c6_receiver_in_order_witness :
    (1 : ℕ) = (DownloadSession.init [1] 0).expected_seq ∧
    ((DownloadSession.init [1] 0).add_data 1 [7]).2.data = [] ++ [7] := by
  have h := (c6_receiver_in_order (DownloadSession.init [1] 0) 1 [7]).2.1
    (by rfl)
  exact ⟨rfl, by simpa [DownloadSession.init] using h.1⟩

/-- C7: on an inbound WHOHAS, at or above the admission limit the node
replies with exactly one DENIED packet; below the limit it replies with
exactly one IHAVE listing exactly the intersection of the requested digests
with the local inventory when that intersection is non-empty, and stays
silent otherwise. -/
theorem c7_whohas_reply (st : GlobalState) (from_addr : AddressType)
    (pkt : List ℕ) (hl pl seq ack : ℕ)
    (hparse : Packet.parse_header pkt =
      some (PktType.WHOHAS, hl, pl, seq, ack)) :
    (st.max_conn ≤ st.upload_sessions.length →
      process_inbound_udp st from_addr pkt = Except.ok (st,
        [(Packet.build_packet PktType.DENIED 0 0 [], from_addr)])) ∧
    (st.upload_sessions.length < st.max_conn →
      (splitHashes (pkt.drop HEADER_LEN)).filter
          (fun h => (st.has_chunks.lookup h).isSome) ≠ [] →
      process_inbound_udp st from_addr pkt = Except.ok (st,
        [(Packet.build_packet PktType.IHAVE 0 0
          ((splitHashes (pkt.drop HEADER_LEN)).filter
            (fun h => (st.has_chunks.lookup h).isSome)).flatten,
          from_addr)])) ∧
    (st.upload_sessions.length < st.max_conn →
      (splitHashes (pkt.drop HEADER_LEN)).filter
          (fun h => (st.has_chunks.lookup h).isSome) = [] →
      process_inbound_udp st from_addr pkt = Except.ok (st, [])) ∧
    (∀ h, h ∈ (splitHashes (pkt.drop HEADER_LEN)).filter
        (fun h => (st.has_chunks.lookup h).isSome) ↔
      h ∈ splitHashes (pkt.drop HEADER_LEN) ∧
        (st.has_chunks.lookup h).isSome) := by
  refine ⟨?_, ?_, ?_, ?_⟩
  · intro hconn
    rw [process_whohas hparse]
    unfold whohas_branch
    dsimp only
    rw [if_pos hconn]
  · intro hconn havail
    rw [process_whohas hparse]
    unfold whohas_branch
    dsimp only
    rw [if_neg (not_le.mpr hconn), if_pos havail]
  · intro hconn havail
    rw [process_whohas hparse]
    unfold whohas_branch
    dsimp only
    rw [if_neg (not_le.mpr hconn), if_neg (fun hne => hne havail)]
  · intro h
    simp [List.mem_filter]

/-- Witness for C7: a node with one active upload session and
`max_conn = 1` answers a WHOHAS broadcast with a single DENIED packet. -/
theorem c7_whohas_reply_witness :
    egBusyState.max_conn ≤ egBusyState.upload_sessions.length ∧
    process_inbound_udp egBusyState 5 egWhohasPkt =
      Except.ok (egBusyState,
        [(Packet.build_packet PktType.DENIED 0 0 [], 5)]) := by
  refine ⟨by decide, ?_⟩
  exact (c7_whohas_reply egBusyState 5 egWhohasPkt 12 12 0 0
    (by decide)).1 (by decide)


/-- C8 counterexample: a 5-byte datagram (shorter than the fixed header
width) makes `process_inbound_udp` raise the header-unpack error instead of
dropping the packet silently, contradicting the claim that no error
escapes the packet-processing step. -/
theorem c8_counterexample :
    process_inbound_udp egEmptyState 0 [0, 0, 0, 0, 0] =
      Except.error () := by
  rfl

/-- C8 (amended): a datagram whose type field is none of the six known
packet types is dropped silently — no response, no state change; but a
datagram shorter than the fixed header width makes the header unpack raise
an error out of the packet-processing step (still with no response and no
state change). -/
theorem c8_malformed_handling (st : GlobalState) (from_addr : AddressType)
    (pkt : List ℕ) :
    (pkt.length < HEADER_LEN →
      process_inbound_udp st from_addr pkt = Except.error ()) ∧
    (∀ t hl pl seq ack,
      Packet.parse_header pkt = some (t, hl, pl, seq, ack) →
      t ∉ [PktType.WHOHAS, PktType.IHAVE, PktType.GET, PktType.DATA,
        PktType.ACK, PktType.DENIED] →
      process_inbound_udp st from_addr pkt = Except.ok (st, [])) := by
  constructor
  · intro hlen
    have hparse : Packet.parse_header pkt = none := by
      unfold Packet.parse_header
      rw [if_pos hlen]
    exact process_err hparse
  · intro t hl pl seq ack hparse hmem
    simp only [List.mem_cons, List.not_mem_nil, or_false, not_or,
      PktType.WHOHAS, PktType.IHAVE, PktType.GET, PktType.DATA, PktType.ACK,
      PktType.DENIED] at hmem
    obtain ⟨h0, h1, h2, h3, h4, h5⟩ := hmem
    simp only [process_inbound_udp, hparse]
    rw [if_neg (by simpa [PktType.WHOHAS] using h0),
      if_neg (by simpa [PktType.IHAVE] using h1),
      if_neg (by simpa [PktType.DENIED] using h5),
      if_neg (by simpa [PktType.GET] using h2),
      if_neg (by simpa [PktType.DATA] using h3),
      if_neg (by simpa [PktType.ACK] using h4)]

/-- Witness for C8 (amended): the unknown type 6 with a full header is
dropped with no output and no state change. -/
theorem c8_malformed_handling_witness :
    Packet.parse_header egUnknownPkt = some (6, 12, 12, 0, 0) ∧
    process_inbound_udp egEmptyState 0 egUnknownPkt =
      Except.ok (egEmptyState, []) := by
  refine ⟨by decide, ?_⟩
  exact (c8_malformed_handling egEmptyState 0 egUnknownPkt).2 6 12 12 0 0
    (by decide) (by decide)


/-- C10: the transfer is stop-and-wait.  The GET handler sends at most the
single DATA segment with sequence 1; the ACK handler sends a DATA segment
only when the ack number equals the session's current `next_seq`, and that
segment carries sequence `ack + 1`; and at every observation point of a
session's lifetime at most one DATA segment is unacknowledged, regardless
of any congestion window. -/
theorem c10_stop_and_wait (ch cd : List ℕ) (addr : AddressType) :
    (∀ (st : GlobalState) (pkt : List ℕ) (hl pl seq ack : ℕ),
      Packet.parse_header pkt = some (PktType.GET, hl, pl, seq, ack) →
      st.has_chunks.lookup ((pkt.drop HEADER_LEN).take 20) = some cd →
      st.upload_sessions.lookup addr = none →
      ∃ st' outs,
        process_inbound_udp st addr pkt = Except.ok (st', outs) ∧
        (outs = [] ∨
          ∃ d, outs = [(Packet.build_packet PktType.DATA 1 0 d, addr)])) ∧
    (∀ (st : GlobalState) (pkt : List ℕ) (hl pl seq ack : ℕ)
        (s : UploadSession),
      Packet.parse_header pkt = some (PktType.ACK, hl, pl, seq, ack) →
      st.upload_sessions.lookup addr = some s →
      ∃ st' outs,
        process_inbound_udp st addr pkt = Except.ok (st', outs) ∧
        (outs = [] ∨ (ack = s.next_seq ∧ ∃ d,
          outs =
            [(Packet.build_packet PktType.DATA (ack + 1) 0 d, addr)]))) ∧
    (∀ o : UploadObs, SessReach ch cd addr o → unackedCount o ≤ 1) := by
  refine ⟨?_, ?_, ?_⟩
  · intro st pkt hl pl seq ack hparse hhas hno
    rw [process_get hparse]
    unfold get_branch
    dsimp only
    simp only [hhas, hno, Option.isNone_none, if_true]
    by_cases hcd : cd.length ≤ 0
    · rw [get_next_data_done rfl (by simpa [UploadSession.init] using hcd)]
      exact ⟨_, _, rfl, Or.inl rfl⟩
    · rw [get_next_data_more rfl (by simpa [UploadSession.init] using hcd)]
      dsimp only [UploadSession.init]
      exact ⟨_, _, rfl, Or.inr ⟨_, rfl⟩⟩
  · intro st pkt hl pl seq ack s hparse hlook
    rw [process_ack hparse]
    unfold ack_branch
    simp only [hlook]
    rw [handle_ack_eq]
    by_cases ha : ack = s.next_seq
    · rw [if_pos ha]
      by_cases hlen : s.chunk_data.length ≤ s.next_seq * MAX_PAYLOAD
      · rw [if_pos hlen]
        dsimp only [UploadSession.is_complete]
        norm_num
        exact ⟨_, _, ⟨rfl, rfl⟩, Or.inl rfl⟩
      · rw [if_neg hlen]
        rcases hc : s.completed with _ | _
        · dsimp only [UploadSession.is_complete]
          norm_num
          rw [get_next_data_more rfl (by simpa using hlen)]
          dsimp only
          subst ha
          exact ⟨_, _, rfl, Or.inr ⟨rfl, _, rfl⟩⟩
        · dsimp only [UploadSession.is_complete]
          norm_num
          exact ⟨_, _, ⟨rfl, rfl⟩, Or.inl rfl⟩
    · rw [if_neg ha]
      exact ⟨_, _, rfl, Or.inl rfl⟩
  · intro o hr
    exact unacked_le_one_of_inv (sessReach_inv hr)

/-- Witness for C10: the observation point right after a GET for a held
one-byte chunk is reachable and has exactly one unacknowledged segment. -/
theorem c10_stop_and_wait_witness :
    SessReach [1] [7] 0 (sessCreate [1] [7] 0).1 ∧
    unackedCount (sessCreate [1] [7] 0).1 ≤ 1 :=
  ⟨SessReach.created,
    (c10_stop_and_wait [1] [7] 0).2.2 _ SessReach.created⟩


open RDT

/-- C3: the sender session's RTT estimator starts at
`estimated_rtt = 0.5`, `dev_rtt = 0.25`, `timeout_interval = 1.5`; a valid
sample updates it by `est' = 0.85·est + 0.15·sample`,
`dev' = 0.70·dev + 0.30·|sample − est'|`,
`timeout = est' + 4·dev'`; and a first sample of `1.0` yields
`estimated_rtt = 0.575`, `dev_rtt = 0.3025`, `timeout_interval = 1.785`. -/
theorem c3_rtt_estimator (s : SenderSession) (sample : ℚ)
    (segs : List (List ℕ)) :
    (SenderSession.init segs).estimated_rtt = 0.5 ∧
    (SenderSession.init segs).dev_rtt = 0.25 ∧
    (SenderSession.init segs).timeout_interval = 1.5 ∧
    (s.update_rtt sample).estimated_rtt =
      0.85 * s.estimated_rtt + 0.15 * sample ∧
    (s.update_rtt sample).dev_rtt =
      0.70 * s.dev_rtt +
        0.30 * |sample - (0.85 * s.estimated_rtt + 0.15 * sample)| ∧
    (s.update_rtt sample).timeout_interval =
      (s.update_rtt sample).estimated_rtt +
        4 * (s.update_rtt sample).dev_rtt ∧
    ((SenderSession.init segs).update_rtt 1).estimated_rtt = 0.575 ∧
    ((SenderSession.init segs).update_rtt 1).dev_rtt = 0.3025 ∧
    ((SenderSession.init segs).update_rtt 1).timeout_interval = 1.785 := by
  refine ⟨rfl, rfl, by norm_num [SenderSession.init], rfl, rfl, rfl,
    ?_, ?_, ?_⟩
  · norm_num [SenderSession.update_rtt, SenderSession.init]
  · norm_num [SenderSession.update_rtt, SenderSession.init, abs_of_nonneg]
  · norm_num [SenderSession.update_rtt, SenderSession.init, abs_of_nonneg]

/-- C4 counterexample: along the concrete reachable trace
create → new ack 1 → three duplicate acks for 1, the third duplicate ack
fires fast retransmit and resets `cwnd` to `1.0` while segments 2 and 3 are
still outstanding, so at that observation point
`next_seq_num − base_seq = 2 > floor(cwnd) = 1`. -/
theorem c4_counterexample :
    SenderReach egSegs egC4State ∧
    ¬ ((egC4State.next_seq_num : ℤ) - egC4State.base_seq ≤
      egC4State.cc.get_cwnd) := by
  constructor
  · show SenderReach egSegs
      ((SenderEvent.ackEvent 1 0).step ((SenderEvent.ackEvent 1 0).step
        ((SenderEvent.ackEvent 1 0).step ((SenderEvent.ackEvent 1 0).step
          (senderStart egSegs 0)))))
    exact .step _ (.step _ (.step _ (.step _ (.start 0))))
  · have h : egC4State.next_seq_num = 4 ∧ egC4State.base_seq = 2 ∧
        egC4State.cc.cwnd = 1 := by
      norm_num [egC4State, senderStart, egSegs, SenderSession.init,
        SenderSession.handle_ack, SenderSession.send_new_packets,
        SenderSession.send_loop, SenderSession.update_rtt, setEntry,
        CongestionController.init, CongestionController.get_cwnd,
        CongestionController.on_new_ack,
        CongestionController.on_duplicate_ack,
        CongestionController.handle_loss_event, List.lookup, List.eraseP,
        Packet.build_packet]
    obtain ⟨hn, hb, hc⟩ := h
    have hg : egC4State.cc.get_cwnd = 1 := by
      rw [CongestionController.get_cwnd,
        tdiv_num_den_eq_floor egC4State.cc.cwnd (by rw [hc]; norm_num),
        hc]
      norm_num
    rw [hn, hb, hg]
    norm_num

/-- C4 (amended): a new segment is sent only while
`next_seq_num − base_seq` is strictly below `floor(cwnd)`, and
`send_new_packets` preserves `next_seq_num − base_seq ≤ floor(cwnd)`; the
bound can fail at observation points right after a loss event resets
`cwnd` (see the counterexample). -/
theorem c4_window_admission (s : SenderSession) (now : ℚ) :
    (((s.next_seq_num : ℤ) - s.base_seq ≤ s.cc.get_cwnd) →
      ((s.send_new_packets now).1.next_seq_num : ℤ) -
        (s.send_new_packets now).1.base_seq ≤ s.cc.get_cwnd) ∧
    ((s.send_new_packets now).2 ≠ [] →
      (s.next_seq_num : ℤ) - s.base_seq < s.cc.get_cwnd) := by
  obtain ⟨hb, _, hn, ho⟩ :=
    send_loop_spec (s.cc.get_cwnd.toNat + 1) s now
  constructor
  · intro h
    unfold SenderSession.send_new_packets
    rw [hb]
    exact hn h
  · exact ho

/-- Witness for C4 (amended): from the fresh sender (window 1, nothing
outstanding), the admission bound holds after the first send. -/
theorem c4_window_admission_witness :
    (((SenderSession.init egSegs).next_seq_num : ℤ) -
      (SenderSession.init egSegs).base_seq ≤
        (SenderSession.init egSegs).cc.get_cwnd) ∧
    ((((SenderSession.init egSegs).send_new_packets 0).1.next_seq_num : ℤ) -
      ((SenderSession.init egSegs).send_new_packets 0).1.base_seq ≤
        (SenderSession.init egSegs).cc.get_cwnd) := by
  have hypo : ((SenderSession.init egSegs).next_seq_num : ℤ) -
      (SenderSession.init egSegs).base_seq ≤
        (SenderSession.init egSegs).cc.get_cwnd := by
    rw [CongestionController.get_cwnd,
      tdiv_num_den_eq_floor (SenderSession.init egSegs).cc.cwnd
        (by norm_num [SenderSession.init, CongestionController.init])]
    norm_num [SenderSession.init, CongestionController.init]
  exact ⟨hypo, (c4_window_admission (SenderSession.init egSegs) 0).1 hypo⟩

/-- C5: a duplicate ack below `base_seq` whose count reaches exactly 3
causes exactly one retransmission, of the segment at the current
`base_seq` (not of the acked number), with `send_time` refreshed and
`was_retransmitted` set; the first two duplicates send nothing and only
bump the duplicate count. -/
theorem c5_fast_retransmit (s : SenderSession) (a : ℕ) (now : ℚ)
    (e : SegmentEntry) (hdup : a < s.base_seq)
    (hentry : s.unacked_buffer.lookup s.base_seq = some e) :
    (s.cc.dup_ack_count + 1 = 3 →
      (s.handle_ack a now).2 =
        [Packet.build_packet PktType.DATA s.base_seq 0 e.data] ∧
      (s.handle_ack a now).1.unacked_buffer.lookup s.base_seq =
        some { e with send_time := now, was_retransmitted := true } ∧
      (s.handle_ack a now).1.base_seq = s.base_seq ∧
      (s.handle_ack a now).1.next_seq_num = s.next_seq_num) ∧
    (s.cc.dup_ack_count + 1 ≠ 3 →
      (s.handle_ack a now).2 = [] ∧
      (s.handle_ack a now).1 =
        { s with cc := (s.cc.on_duplicate_ack).2 }) := by
  have hne : a ≠ s.base_seq := Nat.ne_of_lt hdup
  constructor
  · intro h3
    unfold SenderSession.handle_ack
    rw [if_neg hne, if_pos hdup]
    unfold CongestionController.on_duplicate_ack
    dsimp only
    rw [if_pos h3]
    dsimp only
    rw [hentry]
    exact ⟨rfl, lookup_setEntry hentry _, rfl, rfl⟩
  · intro h3
    unfold SenderSession.handle_ack
    rw [if_neg hne, if_pos hdup]
    unfold CongestionController.on_duplicate_ack
    dsimp only
    rw [if_neg h3]
    exact ⟨rfl, rfl⟩

/-- Witness for C5: in a state with segments 2 and 3 outstanding and two
duplicates counted, a third duplicate ack for 1 retransmits exactly the
segment at `base_seq = 2`. -/
theorem c5_fast_retransmit_witness :
    1 < egC5State.base_seq ∧
    egC5State.cc.dup_ack_count + 1 = 3 ∧
    (egC5State.handle_ack 1 5).2 =
      [Packet.build_packet PktType.DATA egC5State.base_seq 0 [0]] ∧
    (egC5State.handle_ack 1 5).1.base_seq = egC5State.base_seq := by
  have h := (c5_fast_retransmit egC5State 1 5
    { data := [0], send_time := 0, was_retransmitted := false }
    (by decide) rfl).1 (by decide)
  exact ⟨by decide, by decide, h.1, h.2.2.1⟩

end Claims
